import Mathlib

/-!
Shallow embedding of `moabb/datasets/physionet_mi.py` (class `PhysionetMI`).

Channel names are modelled as lists of Unicode code points (`List Nat`);
sample values and event codes as `Int`.  The external library (mne) calls —
EDF decode, annotation decoding, file download — are modelled as oracle
inputs (`RawEDF`, `load`, `loadData`); everything this file's Python code
itself computes is translated directly from the source.
-/

namespace PhysionetMI

/-- Code points of a string literal (helper for writing channel names). -/
def codes (s : String) : List Nat := s.data.map Char.toNat

/-- Python `x.strip('.')` : remove all leading and trailing '.' (code 46). -/
def stripDots (l : List Nat) : List Nat :=
  (((l.dropWhile (· == 46)).reverse).dropWhile (· == 46)).reverse

/-- ASCII uppercase of one code point (Python `str.upper` on these names). -/
def upChar (c : Nat) : Nat := if 97 ≤ c ∧ c ≤ 122 then c - 32 else c

/-- Python `x.upper()` on a channel name. -/
def upper (l : List Nat) : List Nat := l.map upChar

/-- The fixed old-to-canonical rename table passed to `rename_channels`. -/
def canonTable : List (List Nat × List Nat) :=
  [(codes "AFZ", codes "AFz"), (codes "PZ", codes "Pz"),
   (codes "FPZ", codes "Fpz"), (codes "FCZ", codes "FCz"),
   (codes "FP1", codes "Fp1"), (codes "CZ", codes "Cz"),
   (codes "OZ", codes "Oz"), (codes "POZ", codes "POz"),
   (codes "IZ", codes "Iz"), (codes "CPZ", codes "CPz"),
   (codes "FP2", codes "Fp2"), (codes "FZ", codes "Fz")]

/-- Apply the rename table: names not in the table pass through unchanged. -/
def canonApply (l : List Nat) : List Nat :=
  match canonTable.lookup l with
  | some v => v
  | none => l

/-- The case-normalization steps the code performs before the table:
`raw.rename_channels(lambda x: x.strip('.'))` then
`raw.rename_channels(lambda x: x.upper())`. -/
def caseNormalize (l : List Nat) : List Nat := upper (stripDots l)

/-- Full channel-name normalization: strip dots, uppercase, rename table. -/
def normalizeName (l : List Nat) : List Nat := canonApply (caseNormalize l)

/-- What the spec sentence for claim C6 describes (for comparison only):
"uppercases it and strips a trailing dot only — characters at the start of
the name (including a leading dot) are left intact". -/
def specCaseNormalize (l : List Nat) : List Nat :=
  let u := upper l
  if u.getLast? = some 46 then u.dropLast else u

/-- Output of `read_raw_edf` + `events_from_annotations`, as decoded by the
external library: channel names, per-channel data, sample count `n_times`,
and decoded annotation events as (sample-offset, code) pairs
(`event[0]`, `event[2]` in the source). -/
structure RawEDF where
  chNames : List (List Nat)
  data : List (List Int)
  nTimes : Nat
  events : List (Nat × Int)

/-- A recording as this adapter stores it: names plus channel data. -/
structure Recording where
  chNames : List (List Nat)
  data : List (List Int)
deriving DecidableEq

/-- `stim_channel = np.zeros((1, raw.n_times))` then
`for event in events: stim_channel[0, event[0]] = event[2]`. -/
def buildStimChannel (n : Nat) (events : List (Nat × Int)) : List Int :=
  events.foldl (fun acc e => acc.set e.1 e.2) (List.replicate n 0)

/-- `_load_one_run` after the oracle decode: normalize channel names
(strip '.', uppercase, rename table), then append the simulated stim
channel as a new channel named "STI 014". -/
def loadOneRun (edf : RawEDF) : Recording :=
  { chNames := (((edf.chNames.map stripDots).map upper).map canonApply)
      ++ [codes "STI 014"],
    data := edf.data ++ [buildStimChannel edf.nTimes edf.events] }

/-- Apply `f` to the last element of a list, leaving the rest unchanged
(numpy `raw._data[-1] = ...` on the channel array). -/
def modifyLast (f : α → α) : List α → List α
  | [] => []
  | [a] => [f a]
  | a :: b :: rest => a :: modifyLast f (b :: rest)

/-- The two sequential masked assignments of `_get_single_subject_data`:
`raw._data[-1, stim == 2] = 4` then `raw._data[-1, stim == 3] = 5`
(each mask is evaluated against the channel as it stands). -/
def remapFeetChannel (l : List Int) : List Int :=
  (l.map (fun v => if v = 2 then 4 else v)).map (fun v => if v = 3 then 5 else v)

/-- The feet-run post-processing: remap codes on the last channel only. -/
def applyFeetRemap (rec : Recording) : Recording :=
  { rec with data := modifyLast remapFeetChannel rec.data }

/-- The simultaneous remap the spec describes (2→4, 3→5, rest unchanged). -/
def remapVal (v : Int) : Int := if v = 2 then 4 else if v = 3 then 5 else v

/-- The dataset object: fields set in `PhysionetMI.__init__`. -/
structure Dataset where
  subject_list : List Nat
  hand_runs : List Nat
  feet_runs : List Nat

/-- `PhysionetMI(imagined, executed)`: subjects 1..109; imagined adds feet
runs [6,10,14] and hand runs [4,8,12]; executed then adds feet [5,9,13]
and hand [3,7,11]. -/
def init (imagined executed : Bool) : Dataset :=
  { subject_list := List.range' 1 109,
    hand_runs := (if imagined then [4, 8, 12] else [])
      ++ (if executed then [3, 7, 11] else []),
    feet_runs := (if imagined then [6, 10, 14] else [])
      ++ (if executed then [5, 9, 13] else []) }

/-- `'run_%d' % run`. -/
def runLabel (r : Nat) : String := "run_" ++ toString r

/-- The inner session dictionary built by `_get_single_subject_data`, with
`load : subject → run → RawEDF` standing for the external fetch+decode:
baseline runs 1 and 2 first, then hand runs, then feet runs (these last
with the stim-code remap applied before storage). -/
def sessionEntries (d : Dataset) (load : Nat → Nat → RawEDF) (s : Nat) :
    List (String × Recording) :=
  [("baseline_eye_open", loadOneRun (load s 1)),
   ("baseline_eye_closed", loadOneRun (load s 2))]
  ++ d.hand_runs.map (fun r => (runLabel r, loadOneRun (load s r)))
  ++ d.feet_runs.map (fun r => (runLabel r, applyFeetRemap (loadOneRun (load s r))))

/-- `_get_single_subject_data` returns `{"session_0": data}`. -/
def getSingleSubjectData (d : Dataset) (load : Nat → Nat → RawEDF) (s : Nat) :
    List (String × List (String × Recording)) :=
  [("session_0", sessionEntries d load s)]

/-- `get_config` / `set_config` pair on `MNE_DATASETS_EEGBCI_PATH`:
set to `osp.join(osp.expanduser("~"), "mne_data")` only if currently unset. -/
def ensureConfig (home : String) (cfg : Option String) : Option String :=
  match cfg with
  | none => some (home ++ "/mne_data")
  | some p => some p

/-- `_load_one_run` including its configuration effect. -/
def loadOneRunCfg (home : String) (cfg : Option String) (edf : RawEDF) :
    Option String × Recording :=
  (ensureConfig home cfg, loadOneRun edf)

/-- `_get_single_subject_data` including its configuration effect: one
check-and-set at the top, then one per `_load_one_run` call. -/
def getSingleSubjectDataCfg (d : Dataset) (home : String) (cfg : Option String)
    (load : Nat → Nat → RawEDF) (s : Nat) :
    Option String × List (String × List (String × Recording)) :=
  (([1, 2] ++ d.hand_runs ++ d.feet_runs).foldl
      (fun c _ => ensureConfig home c) (ensureConfig home cfg),
   getSingleSubjectData d load s)

/-- Result of a successful `data_path` call: the (possibly updated)
configuration value, the single `eegbci.load_data` request made
(subject, runs), and the returned local paths. -/
structure DataPathResult where
  newConfig : Option String
  request : Nat × List Nat
  paths : List String
deriving DecidableEq

/-- `data_path(subject, path, force_update, update_path, verbose)`:
raise `ValueError("Invalid subject number")` if the subject is not in the
subject list — before the configuration check and before any download —
otherwise check-and-set the cache directory and request runs
`[1,2] + hand_runs + feet_runs` from `eegbci.load_data` (modelled by the
oracle `loadData`). -/
def data_path (d : Dataset) (loadData : Nat → List Nat → Option String → List String)
    (home : String) (subject : Nat) (path : Option String)
    (force_update : Bool) (update_path : Option Bool)
    (verbose : Option String) (cfg : Option String) :
    Except String DataPathResult :=
  if subject ∈ d.subject_list then
    .ok { newConfig := ensureConfig home cfg,
          request := (subject, [1, 2] ++ d.hand_runs ++ d.feet_runs),
          paths := loadData subject ([1, 2] ++ d.hand_runs ++ d.feet_runs) verbose }
  else
    .error "Invalid subject number"

/-! ### Lemmas about the simulated stim channel -/

lemma setFold_length (ev : List (Nat × Int)) (acc : List Int) :
    (ev.foldl (fun a e => a.set e.1 e.2) acc).length = acc.length := by
  induction ev generalizing acc with
  | nil => rfl
  | cons q rest ih => simp [List.foldl_cons, ih, List.length_set]

lemma setFold_getElem?_notMem (ev : List (Nat × Int)) (acc : List Int) (i : Nat)
    (h : i ∉ ev.map Prod.fst) :
    (ev.foldl (fun a e => a.set e.1 e.2) acc)[i]? = acc[i]? := by
  induction ev generalizing acc with
  | nil => rfl
  | cons q rest ih =>
    simp only [List.map_cons, List.mem_cons] at h
    push_neg at h
    simp only [List.foldl_cons]
    rw [ih _ h.2, List.getElem?_set_ne (fun hq => h.1 hq.symm)]

lemma setFold_getElem?_mem (ev : List (Nat × Int)) (acc : List Int)
    (hnd : (ev.map Prod.fst).Nodup) (p : Nat × Int) (hp : p ∈ ev)
    (hlt : p.1 < acc.length) :
    (ev.foldl (fun a e => a.set e.1 e.2) acc)[p.1]? = some p.2 := by
  induction ev generalizing acc with
  | nil => cases hp
  | cons q rest ih =>
    simp only [List.map_cons, List.nodup_cons] at hnd
    simp only [List.foldl_cons]
    rcases List.mem_cons.1 hp with h | h
    · subst h
      rw [setFold_getElem?_notMem rest _ p.1 hnd.1, List.getElem?_set_self hlt]
    · exact ih _ hnd.2 h (by rw [List.length_set]; exact hlt)

lemma buildStimChannel_length (n : Nat) (ev : List (Nat × Int)) :
    (buildStimChannel n ev).length = n := by
  unfold buildStimChannel
  rw [setFold_length, List.length_replicate]

lemma buildStimChannel_at_event (n : Nat) (ev : List (Nat × Int))
    (hnd : (ev.map Prod.fst).Nodup) (p : Nat × Int) (hp : p ∈ ev)
    (hlt : p.1 < n) : (buildStimChannel n ev)[p.1]? = some p.2 := by
  unfold buildStimChannel
  exact setFold_getElem?_mem ev _ hnd p hp (by rw [List.length_replicate]; exact hlt)

lemma buildStimChannel_at_other (n : Nat) (ev : List (Nat × Int)) (i : Nat)
    (hi : i < n) (h : i ∉ ev.map Prod.fst) :
    (buildStimChannel n ev)[i]? = some 0 := by
  unfold buildStimChannel
  rw [setFold_getElem?_notMem _ _ _ h, List.getElem?_replicate]
  simp [hi]

/-- C3: for every recording with `n` samples whose decoded event offsets are
pairwise distinct and lie in `[0, n)`, `_load_one_run` appends exactly one
new channel, named "STI 014", of length `n`, zero everywhere except at the
event offsets where it carries the event codes — with no dependence on any
run type (the function takes none). -/
theorem C3_stim_channel_appended (edf : RawEDF)
    (hnd : (edf.events.map Prod.fst).Nodup)
    (hin : ∀ p ∈ edf.events, p.1 < edf.nTimes) :
    (loadOneRun edf).data.length = edf.data.length + 1 ∧
    (loadOneRun edf).chNames.getLast? = some (codes "STI 014") ∧
    ∃ stim, (loadOneRun edf).data.getLast? = some stim ∧
      stim.length = edf.nTimes ∧
      (∀ p ∈ edf.events, stim[p.1]? = some p.2) ∧
      (∀ i < edf.nTimes, i ∉ edf.events.map Prod.fst → stim[i]? = some 0) := by
  refine ⟨by simp [loadOneRun], by simp [loadOneRun], buildStimChannel edf.nTimes edf.events,
    by simp [loadOneRun], buildStimChannel_length _ _, ?_, ?_⟩
  · exact fun p hp => buildStimChannel_at_event _ _ hnd p hp (hin p hp)
  · exact fun i hi hm => buildStimChannel_at_other _ _ i hi hm

/-- Witness for C3 at a concrete decoded recording. -/
theorem C3_stim_channel_appended_witness :
    ∃ stim,
      (loadOneRun ⟨[[70, 49]], [[10, 20, 30]], 3, [(0, 2), (2, 3)]⟩).data.getLast?
        = some stim ∧ stim.length = 3 ∧ stim[0]? = some 2 ∧ stim[1]? = some 0 := by
  obtain ⟨-, -, stim, h1, h2, h3, h4⟩ :=
    C3_stim_channel_appended ⟨[[70, 49]], [[10, 20, 30]], 3, [(0, 2), (2, 3)]⟩
      (by decide) (by decide)
  exact ⟨stim, h1, h2, h3 (0, 2) (by simp), h4 1 (by decide) (by decide)⟩

/-! ### Lemmas about channel-name normalization -/

/-- A name with no '.' at either edge. -/
def noEdgeDot (l : List Nat) : Prop :=
  (∀ a, l.head? = some a → a ≠ 46) ∧ (∀ a, l.getLast? = some a → a ≠ 46)

lemma dropWhileDot_head (l : List Nat) (a : Nat)
    (h : (l.dropWhile (· == 46)).head? = some a) : a ≠ 46 := by
  induction l with
  | nil => simp [List.dropWhile] at h
  | cons b t ih =>
    rw [List.dropWhile_cons] at h
    by_cases hb : (b == 46) = true
    · rw [if_pos hb] at h; exact ih h
    · rw [if_neg hb] at h
      simp only [List.head?_cons, Option.some.injEq] at h
      subst h
      simpa using hb

lemma dropWhileDot_eq_self (l : List Nat) (h : ∀ a, l.head? = some a → a ≠ 46) :
    l.dropWhile (· == 46) = l := by
  cases l with
  | nil => rfl
  | cons b t =>
    have hb := h b rfl
    rw [List.dropWhile_cons, if_neg (by simpa using hb)]

lemma getLast?_dropWhileDot (l : List Nat) (h : l.dropWhile (· == 46) ≠ []) :
    (l.dropWhile (· == 46)).getLast? = l.getLast? := by
  induction l with
  | nil => simp [List.dropWhile] at h
  | cons b t ih =>
    rw [List.dropWhile_cons]
    by_cases hb : (b == 46) = true
    · rw [List.dropWhile_cons, if_pos hb] at h
      have ht : t ≠ [] := by
        intro he; subst he; simp [List.dropWhile] at h
      rw [if_pos hb, ih h]
      cases t with
      | nil => exact absurd rfl ht
      | cons c u => rw [List.getLast?_cons_cons]
    · rw [if_neg hb]

lemma stripDots_noEdgeDot (l : List Nat) : noEdgeDot (stripDots l) := by
  unfold stripDots
  constructor
  · intro a ha
    rw [List.head?_reverse] at ha
    by_cases hm : ((l.dropWhile (· == 46)).reverse).dropWhile (· == 46) = []
    · rw [hm] at ha; cases ha
    · rw [getLast?_dropWhileDot _ hm, List.getLast?_reverse] at ha
      exact dropWhileDot_head l a ha
  · intro a ha
    rw [List.getLast?_reverse] at ha
    exact dropWhileDot_head _ a ha

lemma stripDots_eq_self (l : List Nat) (h : noEdgeDot l) : stripDots l = l := by
  unfold stripDots
  rw [dropWhileDot_eq_self l h.1]
  rw [dropWhileDot_eq_self l.reverse (fun a ha => h.2 a (by rwa [List.head?_reverse] at ha))]
  exact List.reverse_reverse l

lemma upChar_eq_dot (c : Nat) : upChar c = 46 ↔ c = 46 := by
  unfold upChar; split <;> omega

lemma upChar_idem (c : Nat) : upChar (upChar c) = upChar c := by
  simp only [upChar]
  by_cases h : 97 ≤ c ∧ c ≤ 122
  · rw [if_pos h, if_neg (by omega)]
  · rw [if_neg h, if_neg h]

lemma upper_idem (l : List Nat) : upper (upper l) = upper l := by
  simp only [upper, List.map_map, Function.comp_def, upChar_idem]

lemma upper_noEdgeDot (l : List Nat) (h : noEdgeDot l) : noEdgeDot (upper l) := by
  constructor
  · intro a ha
    rw [upper, List.head?_map] at ha
    cases hh : l.head? with
    | none => rw [hh] at ha; cases ha
    | some b =>
      rw [hh] at ha
      simp only [Option.map_some', Option.some.injEq] at ha
      subst ha
      exact fun hc => h.1 b hh ((upChar_eq_dot b).1 hc)
  · intro a ha
    rw [upper, List.getLast?_map] at ha
    cases hh : l.getLast? with
    | none => rw [hh] at ha; cases ha
    | some b =>
      rw [hh] at ha
      simp only [Option.map_some', Option.some.injEq] at ha
      subst ha
      exact fun hc => h.2 b hh ((upChar_eq_dot b).1 hc)

lemma lookup_some_mem (l : List (List Nat × List Nat)) (a v : List Nat)
    (h : l.lookup a = some v) : v ∈ l.map Prod.snd := by
  induction l with
  | nil => cases h
  | cons q rest ih =>
    obtain ⟨k, b⟩ := q
    rw [List.lookup_cons] at h
    by_cases hk : (a == k) = true
    · simp only [hk] at h
      simp only [Option.some.injEq] at h
      subst h
      exact List.mem_cons_self _ _
    · rw [Bool.not_eq_true] at hk
      simp only [hk] at h
      exact List.mem_cons_of_mem _ (ih h)

lemma canonTable_vals_fixed : ∀ v ∈ canonTable.map Prod.snd, normalizeName v = v := by
  decide

lemma canonApply_of_lookup_none (l : List Nat) (h : canonTable.lookup l = none) :
    canonApply l = l := by
  unfold canonApply; rw [h]

lemma canonApply_of_lookup_some (l v : List Nat) (h : canonTable.lookup l = some v) :
    canonApply l = v := by
  unfold canonApply; rw [h]

/-- C5: the channel-name normalization (strip '.', uppercase, canonical
rename table, names outside the table passed through) is idempotent. -/
theorem C5_normalization_idempotent (l : List Nat) :
    normalizeName (normalizeName l) = normalizeName l := by
  cases hl : canonTable.lookup (caseNormalize l) with
  | some v =>
    have h1 : normalizeName l = v := by
      unfold normalizeName; rw [canonApply_of_lookup_some _ _ hl]
    rw [h1]
    exact canonTable_vals_fixed v (lookup_some_mem _ _ _ hl)
  | none =>
    unfold caseNormalize at hl
    have h1 : normalizeName l = upper (stripDots l) := by
      unfold normalizeName caseNormalize
      exact canonApply_of_lookup_none _ hl
    rw [h1]
    have hne : noEdgeDot (upper (stripDots l)) :=
      upper_noEdgeDot _ (stripDots_noEdgeDot l)
    unfold normalizeName caseNormalize
    rw [stripDots_eq_self _ hne, upper_idem]
    exact canonApply_of_lookup_none _ hl

lemma dropDot_map_upChar (l : List Nat) :
    (l.map upChar).dropWhile (· == 46) = (l.dropWhile (· == 46)).map upChar := by
  induction l with
  | nil => rfl
  | cons b t ih =>
    simp only [List.map_cons, List.dropWhile_cons]
    by_cases hb : b = 46
    · subst hb
      have h46 : upChar 46 = 46 := rfl
      simp [h46, ih]
    · have h1 : ¬ (upChar b = 46) := fun h => hb ((upChar_eq_dot b).1 h)
      simp [hb, h1]

/-- C6 counterexample: on the name ".X." the code's case normalization
(strip leading AND trailing dots, then uppercase) yields "X", while the
claimed behaviour (uppercase, strip a trailing dot only, leading characters
intact) would yield ".X". -/
theorem C6_counterexample :
    caseNormalize (codes ".X.") = codes "X" ∧
    specCaseNormalize (codes ".X.") = codes ".X" ∧
    caseNormalize (codes ".X.") ≠ specCaseNormalize (codes ".X.") := by
  decide

/-- C6 (amended): case normalization uppercases the name and strips ALL
leading and trailing '.' characters (uppercasing and dot-stripping commute,
so the code's strip-then-uppercase order equals uppercase-then-strip), and
it runs before the canonical-spelling table is applied. -/
theorem C6_case_normalization (l : List Nat) :
    caseNormalize l = stripDots (upper l) ∧
    normalizeName l = canonApply (caseNormalize l) := by
  refine ⟨?_, rfl⟩
  unfold caseNormalize stripDots upper
  rw [dropDot_map_upChar, ← List.map_reverse, dropDot_map_upChar, ← List.map_reverse]

/-! ### Lemmas about the feet-run remap and the session assembly -/

theorem modifyLast_length (f : α → α) : ∀ (l : List α), (modifyLast f l).length = l.length
  | [] => rfl
  | [_] => rfl
  | a :: b :: rest => by
    simp only [modifyLast, List.length_cons, modifyLast_length f (b :: rest)]

theorem modifyLast_concat (f : α → α) :
    ∀ (xs : List α) (x : α), modifyLast f (xs ++ [x]) = xs ++ [f x]
  | [], _ => rfl
  | [_], _ => rfl
  | a :: b :: rest, x => by
    have ih := modifyLast_concat f (b :: rest) x
    simp only [List.cons_append] at ih ⊢
    rw [modifyLast, ih]

lemma remapVal_step (v : Int) :
    (if (if v = 2 then 4 else v) = 3 then (5 : Int) else if v = 2 then 4 else v)
      = remapVal v := by
  unfold remapVal
  by_cases h2 : v = 2
  · subst h2; norm_num
  · by_cases h3 : v = 3
    · subst h3; norm_num
    · simp [h2, h3]

lemma remapFeetChannel_eq_map (l : List Int) : remapFeetChannel l = l.map remapVal := by
  unfold remapFeetChannel
  rw [List.map_map]
  exact List.map_congr_left fun v _ => remapVal_step v

lemma applyFeetRemap_data (edf : RawEDF) :
    (applyFeetRemap (loadOneRun edf)).data
      = edf.data ++ [(buildStimChannel edf.nTimes edf.events).map remapVal] := by
  show modifyLast remapFeetChannel (edf.data ++ [buildStimChannel edf.nTimes edf.events])
      = _
  rw [modifyLast_concat, remapFeetChannel_eq_map]

lemma setFold_mem (ev : List (Nat × Int)) (acc : List Int) (v : Int)
    (hv : v ∈ ev.foldl (fun a e => a.set e.1 e.2) acc) :
    v ∈ acc ∨ v ∈ ev.map Prod.snd := by
  induction ev generalizing acc with
  | nil => exact Or.inl hv
  | cons q rest ih =>
    simp only [List.foldl_cons] at hv
    rcases ih _ hv with h | h
    · rcases List.mem_or_eq_of_mem_set h with h' | h'
      · exact Or.inl h'
      · exact Or.inr (by simp [h'])
    · exact Or.inr (List.mem_cons_of_mem _ h)

lemma buildStimChannel_mem (n : Nat) (ev : List (Nat × Int)) (v : Int)
    (hv : v ∈ buildStimChannel n ev) : v = 0 ∨ v ∈ ev.map Prod.snd := by
  unfold buildStimChannel at hv
  rcases setFold_mem ev _ v hv with h | h
  · exact Or.inl (List.eq_of_mem_replicate h)
  · exact Or.inr h

lemma sessionKeys (d : Dataset) (load : Nat → Nat → RawEDF) (s : Nat) :
    (sessionEntries d load s).map Prod.fst
      = ["baseline_eye_open", "baseline_eye_closed"]
        ++ d.hand_runs.map runLabel ++ d.feet_runs.map runLabel := by
  simp [sessionEntries, List.map_map, Function.comp_def]

/-- C1: for every feet run, what `_get_single_subject_data` stores is the
loaded recording with the remap applied; the remap rewrites the last (stim)
channel pointwise by 2→4, 3→5 (everything else fixed) and leaves all other
channels untouched; hence if the decoded stim channel's nonzero values lie
in {1,2,3}, the stored one's nonzero values lie in {1,4,5}, never 2 or 3. -/
theorem C1_feet_run_remap (d : Dataset) (load : Nat → Nat → RawEDF) (s : Nat)
    (edf : RawEDF) :
    (∀ r ∈ d.feet_runs,
      (runLabel r, applyFeetRemap (loadOneRun (load s r))) ∈ sessionEntries d load s) ∧
    (∀ l, remapFeetChannel l = l.map remapVal) ∧
    (applyFeetRemap (loadOneRun edf)).data
      = edf.data ++ [(buildStimChannel edf.nTimes edf.events).map remapVal] ∧
    ((∀ v ∈ buildStimChannel edf.nTimes edf.events, v ≠ 0 → v ∈ ([1, 2, 3] : List Int)) →
      ∀ v ∈ (buildStimChannel edf.nTimes edf.events).map remapVal,
        v ≠ 0 → v ∈ ([1, 4, 5] : List Int) ∧ v ≠ 2 ∧ v ≠ 3) := by
  refine ⟨?_, remapFeetChannel_eq_map, applyFeetRemap_data edf, ?_⟩
  · intro r hr
    simp only [sessionEntries, List.mem_append, List.mem_map]
    exact Or.inr ⟨r, hr, rfl⟩
  · intro hdec v hv hv0
    rcases List.mem_map.1 hv with ⟨w, hw, hwv⟩
    have hw0 : w ≠ 0 := by
      intro h; subst h
      exact hv0 (by simpa [remapVal] using hwv.symm)
    have hw13 := hdec w hw hw0
    subst hwv
    simp only [List.mem_cons, List.not_mem_nil, or_false] at hw13
    rcases hw13 with h | h | h <;> subst h <;> simp [remapVal]

/-- Witness for C1 at a concrete feet run and decoded recording. -/
theorem C1_feet_run_remap_witness :
    (runLabel 6,
      applyFeetRemap (loadOneRun ⟨[], [], 3, [(0, 2), (1, 3), (2, 1)]⟩))
        ∈ sessionEntries (init true false)
            (fun _ _ => ⟨[], [], 3, [(0, 2), (1, 3), (2, 1)]⟩) 1 ∧
    (∀ v ∈ (buildStimChannel 3 [(0, 2), (1, 3), (2, 1)]).map remapVal,
      v ≠ 0 → v ∈ ([1, 4, 5] : List Int) ∧ v ≠ 2 ∧ v ≠ 3) := by
  obtain ⟨h1, -, -, h4⟩ :=
    C1_feet_run_remap (init true false)
      (fun _ _ => ⟨[], [], 3, [(0, 2), (1, 3), (2, 1)]⟩) 1
      ⟨[], [], 3, [(0, 2), (1, 3), (2, 1)]⟩
  exact ⟨h1 6 (by decide), h4 (by decide)⟩

/-- C2: under the default policy (imagined, not executed), the adapter
loads runs 1, 2, 4, 8, 12, 6, 10, 14 in that order, returns a dict with
the single key "session_0" holding exactly those 8 entries under the
claimed labels, and every stored recording has exactly one more channel
than the raw decoded recording. -/
theorem C2_default_policy (load : Nat → Nat → RawEDF) (s : Nat) :
    getSingleSubjectData (init true false) load s
      = [("session_0",
          [("baseline_eye_open", loadOneRun (load s 1)),
           ("baseline_eye_closed", loadOneRun (load s 2)),
           ("run_4", loadOneRun (load s 4)),
           ("run_8", loadOneRun (load s 8)),
           ("run_12", loadOneRun (load s 12)),
           ("run_6", applyFeetRemap (loadOneRun (load s 6))),
           ("run_10", applyFeetRemap (loadOneRun (load s 10))),
           ("run_14", applyFeetRemap (loadOneRun (load s 14)))])] ∧
    (sessionEntries (init true false) load s).map (fun e => e.2.data.length)
      = [1, 2, 4, 8, 12, 6, 10, 14].map (fun r => (load s r).data.length + 1) := by
  constructor
  · rfl
  · show List.map _ (sessionEntries (init true false) load s) = _
    simp only [sessionEntries, init]
    simp [loadOneRun, applyFeetRemap, modifyLast_length, runLabel]

/-- C7: the two baseline runs and every hand run are stored exactly as
loaded (no remap); the stored marker channel is the decoded one appended
unchanged, and its values stay inside {0} ∪ decoded codes — in particular
inside {0,1,2,3,4,5} whenever the decoder produces codes in {1,2,3,4,5}. -/
theorem C7_nonfeet_unmodified (d : Dataset) (load : Nat → Nat → RawEDF) (s : Nat)
    (edf : RawEDF) :
    ("baseline_eye_open", loadOneRun (load s 1)) ∈ sessionEntries d load s ∧
    ("baseline_eye_closed", loadOneRun (load s 2)) ∈ sessionEntries d load s ∧
    (∀ r ∈ d.hand_runs,
      (runLabel r, loadOneRun (load s r)) ∈ sessionEntries d load s) ∧
    (loadOneRun edf).data = edf.data ++ [buildStimChannel edf.nTimes edf.events] ∧
    ((∀ p ∈ edf.events, p.2 ∈ ([1, 2, 3, 4, 5] : List Int)) →
      ∀ v ∈ buildStimChannel edf.nTimes edf.events,
        v ∈ ([0, 1, 2, 3, 4, 5] : List Int)) := by
  refine ⟨by simp [sessionEntries], by simp [sessionEntries], ?_, rfl, ?_⟩
  · intro r hr
    simp only [sessionEntries, List.mem_append, List.mem_map]
    exact Or.inl (Or.inr ⟨r, hr, rfl⟩)
  · intro hdec v hv
    rcases buildStimChannel_mem _ _ v hv with h | h
    · simp [h]
    · rcases List.mem_map.1 h with ⟨p, hp, hpv⟩
      have := hdec p hp
      rw [hpv] at this
      simp only [List.mem_cons] at this ⊢
      tauto

/-- Witness for C7 at a concrete dataset, oracle and decoded recording. -/
theorem C7_nonfeet_unmodified_witness :
    (∀ r ∈ (init true false).hand_runs,
      (runLabel r, loadOneRun ((fun _ _ => (⟨[], [], 2, [(0, 2)]⟩ : RawEDF)) 1 r))
        ∈ sessionEntries (init true false) (fun _ _ => ⟨[], [], 2, [(0, 2)]⟩) 1) ∧
    (∀ v ∈ buildStimChannel 2 [(0, 2)], v ∈ ([0, 1, 2, 3, 4, 5] : List Int)) := by
  obtain ⟨-, -, h3, -, h5⟩ :=
    C7_nonfeet_unmodified (init true false) (fun _ _ => ⟨[], [], 2, [(0, 2)]⟩) 1
      ⟨[], [], 2, [(0, 2)]⟩
  exact ⟨h3, h5 (by decide)⟩

/-- C9: under every run-selection policy, the generated run labels are
pairwise distinct (the hand and feet run-index sets are disjoint), so the
session mapping has exactly 2 + |hand_runs| + |feet_runs| entries. -/
theorem C9_labels_distinct (imagined executed : Bool)
    (load : Nat → Nat → RawEDF) (s : Nat) :
    ((sessionEntries (init imagined executed) load s).map Prod.fst).Nodup ∧
    (sessionEntries (init imagined executed) load s).length
      = 2 + (init imagined executed).hand_runs.length
          + (init imagined executed).feet_runs.length := by
  constructor
  · rw [sessionKeys]
    cases imagined <;> cases executed <;> decide
  · simp only [sessionEntries, List.length_append, List.length_map,
      List.length_cons, List.length_nil]

/-- C4: `data_path` raises `ValueError("Invalid subject number")` exactly
for subjects outside 1..109, before any download (the erroneous result does
not depend on the download oracle at all); for subjects in 1..109 it
proceeds and requests runs [1,2] + hand_runs + feet_runs. -/
theorem C4_subject_validation (imagined executed : Bool)
    (loadData loadData' : Nat → List Nat → Option String → List String)
    (home : String) (subject : Nat) (path : Option String) (fu : Bool)
    (up : Option Bool) (verbose : Option String) (cfg : Option String) :
    (¬ (1 ≤ subject ∧ subject ≤ 109) →
      data_path (init imagined executed) loadData home subject path fu up verbose cfg
        = .error "Invalid subject number" ∧
      data_path (init imagined executed) loadData home subject path fu up verbose cfg
        = data_path (init imagined executed) loadData' home subject path fu up verbose cfg) ∧
    ((1 ≤ subject ∧ subject ≤ 109) →
      ∃ res,
        data_path (init imagined executed) loadData home subject path fu up verbose cfg
          = .ok res ∧
        res.request = (subject,
          [1, 2] ++ (init imagined executed).hand_runs
            ++ (init imagined executed).feet_runs)) := by
  have hmem : subject ∈ (init imagined executed).subject_list
      ↔ (1 ≤ subject ∧ subject ≤ 109) := by
    simp only [init, List.mem_range'_1]
    omega
  constructor
  · intro h
    have hn : subject ∉ (init imagined executed).subject_list :=
      fun hm => h (hmem.1 hm)
    unfold data_path
    rw [if_neg hn]
    exact ⟨rfl, by rw [if_neg hn]⟩
  · intro h
    unfold data_path
    rw [if_pos (hmem.2 h)]
    exact ⟨_, rfl, rfl⟩

/-- Witness for C4 at subjects 0, 110 (invalid) and 1, 109 (valid). -/
theorem C4_subject_validation_witness :
    data_path (init true false) (fun _ _ _ => []) "h" 0 none false none none none
      = .error "Invalid subject number" ∧
    data_path (init true false) (fun _ _ _ => []) "h" 110 none false none none none
      = .error "Invalid subject number" ∧
    (∃ res, data_path (init true false) (fun _ _ _ => []) "h" 1 none false none none none
      = .ok res) ∧
    (∃ res, data_path (init true false) (fun _ _ _ => []) "h" 109 none false none none none
      = .ok res) := by
  refine ⟨?_, ?_, ?_, ?_⟩
  · exact ((C4_subject_validation true false (fun _ _ _ => []) (fun _ _ _ => [])
      "h" 0 none false none none none).1 (by decide)).1
  · exact ((C4_subject_validation true false (fun _ _ _ => []) (fun _ _ _ => [])
      "h" 110 none false none none none).1 (by decide)).1
  · obtain ⟨res, h1, -⟩ := (C4_subject_validation true false (fun _ _ _ => [])
      (fun _ _ _ => []) "h" 1 none false none none none).2 (by decide)
    exact ⟨res, h1⟩
  · obtain ⟨res, h1, -⟩ := (C4_subject_validation true false (fun _ _ _ => [])
      (fun _ _ _ => []) "h" 109 none false none none none).2 (by decide)
    exact ⟨res, h1⟩

lemma ensureConfig_isSome (home : String) (cfg : Option String) :
    (ensureConfig home cfg).isSome := by
  cases cfg <;> rfl

lemma ensureConfig_of_isSome (home : String) (c : Option String)
    (h : c.isSome) : ensureConfig home c = c := by
  cases c with
  | none => cases h
  | some p => rfl

lemma foldl_ensureConfig (home : String) (l : List Nat) (c : Option String)
    (h : c.isSome) : l.foldl (fun c _ => ensureConfig home c) c = c := by
  induction l with
  | nil => rfl
  | cons a rest ih =>
    simp only [List.foldl_cons]
    rw [ensureConfig_of_isSome home c h]
    exact ih

/-- C8: every operation touching the cache-directory configuration value
(`_load_one_run`, `_get_single_subject_data`, `data_path`) sets it to
`<home>/mne_data` only when it is unset, leaves an already-set value
unchanged, and the check-and-set is idempotent. -/
theorem C8_config_idempotent (home : String) (cfg : Option String)
    (edf : RawEDF) (d : Dataset) (load : Nat → Nat → RawEDF) (s : Nat)
    (loadData : Nat → List Nat → Option String → List String)
    (path : Option String) (fu : Bool) (up : Option Bool)
    (verbose : Option String) (subject : Nat) :
    (cfg = none → ensureConfig home cfg = some (home ++ "/mne_data")) ∧
    (∀ p, cfg = some p → ensureConfig home cfg = some p) ∧
    ensureConfig home (ensureConfig home cfg) = ensureConfig home cfg ∧
    (loadOneRunCfg home cfg edf).1 = ensureConfig home cfg ∧
    (getSingleSubjectDataCfg d home cfg load s).1 = ensureConfig home cfg ∧
    (subject ∈ d.subject_list →
      ∃ res, data_path d loadData home subject path fu up verbose cfg = .ok res ∧
        res.newConfig = ensureConfig home cfg) := by
  refine ⟨fun h => by rw [h]; rfl, fun p h => by rw [h]; rfl,
    ensureConfig_of_isSome home _ (ensureConfig_isSome home cfg), rfl, ?_, ?_⟩
  · show List.foldl _ _ _ = _
    exact foldl_ensureConfig home _ _ (ensureConfig_isSome home cfg)
  · intro hmem
    unfold data_path
    rw [if_pos hmem]
    exact ⟨_, rfl, rfl⟩

/-- Witness for C8 at concrete configuration states. -/
theorem C8_config_idempotent_witness :
    ensureConfig "h" none = some "h/mne_data" ∧
    ensureConfig "h" (some "x") = some "x" ∧
    (∃ res, data_path (init true false) (fun _ _ _ => []) "h" 1 none false none
        none (some "x") = .ok res ∧ res.newConfig = ensureConfig "h" (some "x")) := by
  refine ⟨?_, ?_, ?_⟩
  · exact (C8_config_idempotent "h" none ⟨[], [], 0, []⟩ (init true false)
      (fun _ _ => ⟨[], [], 0, []⟩) 1 (fun _ _ _ => []) none false none none 1).1 rfl
  · exact (C8_config_idempotent "h" (some "x") ⟨[], [], 0, []⟩ (init true false)
      (fun _ _ => ⟨[], [], 0, []⟩) 1 (fun _ _ _ => []) none false none none 1).2.1 "x" rfl
  · exact (C8_config_idempotent "h" (some "x") ⟨[], [], 0, []⟩ (init true false)
      (fun _ _ => ⟨[], [], 0, []⟩) 1 (fun _ _ _ => []) none false none none 1).2.2.2.2.2
      (by decide)

/-- C10: `data_path` never reads its `path`, `force_update` and
`update_path` parameters: any two assignments to them give identical
results (same configuration effect, same request, same paths). -/
theorem C10_unused_params (d : Dataset)
    (loadData : Nat → List Nat → Option String → List String) (home : String)
    (subject : Nat) (p1 p2 : Option String) (f1 f2 : Bool)
    (u1 u2 : Option Bool) (verbose : Option String) (cfg : Option String) :
    data_path d loadData home subject p1 f1 u1 verbose cfg
      = data_path d loadData home subject p2 f2 u2 verbose cfg := rfl

end PhysionetMI
